import Mathlib

/-!
Shallow embedding of the dynamic schema manager of `food_webapp_V3.py`
(schema catalog `table_settings` + table migrator), together with the
route-level column-name derivation of `add_table` / `edit_table`.

Modelling conventions:
* A physical SQLite table is a field list plus a list of rows; a row is an
  association list from column identifier to textual value, where an absent
  key models SQL NULL (columns not mentioned by an INSERT are NULL).
* The sqlite3 connection runs each operation inside one transaction
  (Python >= 3.6: DDL does not auto-commit); `conn.rollback()` restores the
  pre-call state.  We model this by computing a pending state and committing
  it only when no statement failed (`runTxn`).
* Storage failures are injected through an oracle `inj : Nat → Bool` telling
  whether the k-th executed SQL statement of the call raises; `injNone`
  injects no failure.  SQLite's own error conditions (duplicate column in
  CREATE TABLE, existing table, missing table, UNIQUE violation on the
  catalog's PRIMARY KEY) are modelled explicitly.
-/

deriving instance DecidableEq for Except

namespace FoodWebapp

/-- A row of a physical table: association list column ↦ value; a missing
key models SQL NULL. -/
abbrev Row := List (String × String)

/-- A physical SQLite table: ordered field list and rows. -/
structure PhysTable where
  fields : List String
  rows : List Row
deriving DecidableEq, Repr

/-- One row of the `table_settings` catalog table. -/
structure TableDef where
  table_id : String
  table_name : String
  columns : List String
  display_columns : List String
  display_order : Int
deriving DecidableEq, Repr

/-- Whole persistent state: the catalog plus the physical tables
(association list table name ↦ table). -/
structure DB where
  settings : List TableDef
  tables : List (String × PhysTable)
deriving DecidableEq, Repr

/-- Value of a row at a column (`none` = NULL / column absent). -/
def rowGet (r : Row) (c : String) : Option String :=
  (r.find? (fun p => p.1 = c)).map (fun p => p.2)

/-- Look a physical table up by name. -/
def findPhys (tables : List (String × PhysTable)) (tid : String) : Option PhysTable :=
  (tables.find? (fun p => p.1 = tid)).map (fun p => p.2)

/-- `SELECT * FROM table_settings WHERE table_id = ?`. -/
def findSetting (settings : List TableDef) (tid : String) : Option TableDef :=
  settings.find? (fun td => td.table_id = tid)

/-- `UPDATE table_settings SET table_name = ?, columns = ?, display_columns = ?
WHERE table_id = ?`. -/
def updateSetting (settings : List TableDef) (tid name : String)
    (cols dcols : List String) : List TableDef :=
  settings.map (fun td =>
    if td.table_id = tid then
      { td with table_name := name, columns := cols, display_columns := dcols }
    else td)

/-- `INSERT INTO table_settings ...`: fails on the PRIMARY KEY if the
table_id is already present. -/
def insertSetting (settings : List TableDef) (td : TableDef) :
    Except String (List TableDef) :=
  if (settings.find? (fun t => t.table_id = td.table_id)).isSome then
    Except.error "UNIQUE constraint failed: table_settings.table_id"
  else Except.ok (settings ++ [td])

/-- Replace the table stored under `tid` (used for the row-copy step). -/
def updatePhys (tables : List (String × PhysTable)) (tid : String)
    (pt : PhysTable) : List (String × PhysTable) :=
  tables.map (fun p => if p.1 = tid then (tid, pt) else p)

/-- Boolean duplicate test on a column list (SQLite rejects
`CREATE TABLE t ([a] TEXT, [a] TEXT)` with "duplicate column name"). -/
def hasDupB : List String → Bool
  | [] => false
  | c :: rest => rest.contains c || hasDupB rest

/-- `CREATE TABLE tid (...)`: fails if the table exists or the column list
has a duplicate name. -/
def createPhysical (tables : List (String × PhysTable)) (tid : String)
    (cols : List String) : Except String (List (String × PhysTable)) :=
  if (tables.find? (fun p => p.1 = tid)).isSome then
    Except.error ("table " ++ tid ++ " already exists")
  else if hasDupB cols then
    Except.error "duplicate column name"
  else Except.ok (tables ++ [(tid, { fields := cols, rows := [] })])

/-- `CREATE TABLE IF NOT EXISTS tid (...)` (used only by seeding, with
literal duplicate-free column lists). -/
def createIfNotExists (tables : List (String × PhysTable)) (tid : String)
    (cols : List String) : List (String × PhysTable) :=
  if (tables.find? (fun p => p.1 = tid)).isSome then tables
  else tables ++ [(tid, { fields := cols, rows := [] })]

/-- Projection of a row onto the copied column list: the SELECTed value for
each listed column, keeping NULLs absent. -/
def projectRow (common : List String) (r : Row) : Row :=
  common.filterMap (fun c => (rowGet r c).map (fun v => (c, v)))

/-- `INSERT INTO dst (common) SELECT common FROM src`: fails if either table
is missing or a named column is absent from either side. -/
def copyRows (tables : List (String × PhysTable)) (src dst : String)
    (common : List String) : Except String (List (String × PhysTable)) :=
  match findPhys tables src with
  | none => Except.error ("no such table: " ++ src)
  | some ptSrc =>
    match findPhys tables dst with
    | none => Except.error ("no such table: " ++ dst)
    | some ptDst =>
      if !common.all (fun c => ptSrc.fields.contains c) then
        Except.error "no such column"
      else if !common.all (fun c => ptDst.fields.contains c) then
        Except.error "no such column"
      else
        Except.ok (updatePhys tables dst
          { ptDst with rows := ptDst.rows ++ ptSrc.rows.map (projectRow common) })

/-- `DROP TABLE tid` (no IF EXISTS): fails when absent. -/
def dropPhysical (tables : List (String × PhysTable)) (tid : String) :
    Except String (List (String × PhysTable)) :=
  if (tables.find? (fun p => p.1 = tid)).isSome then
    Except.ok (tables.filter (fun p => !(p.1 = tid : Bool)))
  else Except.error ("no such table: " ++ tid)

/-- `DROP TABLE IF EXISTS tid`: always succeeds. -/
def dropIfExists (tables : List (String × PhysTable)) (tid : String) :
    List (String × PhysTable) :=
  tables.filter (fun p => !(p.1 = tid : Bool))

/-- `ALTER TABLE src RENAME TO dst`: fails if `src` is absent or `dst`
already exists. -/
def renamePhysical (tables : List (String × PhysTable)) (src dst : String) :
    Except String (List (String × PhysTable)) :=
  if (tables.find? (fun p => p.1 = src)).isNone then
    Except.error ("no such table: " ++ src)
  else if (tables.find? (fun p => p.1 = dst)).isSome then
    Except.error ("there is already another table with this name: " ++ dst)
  else Except.ok (tables.map (fun p => if p.1 = src then (dst, p.2) else p))

/-- Python `set(columns) == set(old_columns)`. -/
def colSetEq (a b : List String) : Bool :=
  a.all (fun c => b.contains c) && b.all (fun c => a.contains c)

/-- Error message used for injected storage failures. -/
def injMsg : String := "injected storage failure"

/-- Injection oracle that never fails. -/
def injNone : Nat → Bool := fun _ => false

/-- Commit-or-rollback wrapper: a failed transaction leaves the committed
state untouched (sqlite rollback). -/
def runTxn (db : DB) (r : Except String DB) : Except String Unit × DB :=
  match r with
  | Except.ok db2 => (Except.ok (), db2)
  | Except.error e => (Except.error e, db)

/-- SQL `MAX(display_order)` over the catalog (`none` on an empty catalog,
as NULL). -/
def maxDisplayOrder : List TableDef → Option Int
  | [] => none
  | td :: rest =>
    match maxDisplayOrder rest with
    | none => some td.display_order
    | some m => some (max td.display_order m)

/-- Python `(x or d)` on an optional integer: both `None` and `0` are falsy
and give `d`. -/
def pyOrDefault (x : Option Int) (d : Int) : Int :=
  match x with
  | none => d
  | some v => if v = 0 then d else v

/-- Transaction body of `create_table(table_id, table_name, columns,
display_columns)`: read MAX(display_order) (statement 0), INSERT the catalog
row (statement 1), CREATE the physical table (statement 2). -/
def create_table_go (inj : Nat → Bool) (tid name : String)
    (cols dcols : List String) (db : DB) : Except String DB :=
  if inj 0 then Except.error injMsg else
  let nextOrder : Int := pyOrDefault (maxDisplayOrder db.settings) (-1) + 1
  if inj 1 then Except.error injMsg else
  match insertSetting db.settings
      { table_id := tid, table_name := name, columns := cols,
        display_columns := dcols, display_order := nextOrder } with
  | Except.error e => Except.error e
  | Except.ok settings2 =>
    if inj 2 then Except.error injMsg else
    match createPhysical db.tables tid cols with
    | Except.error e => Except.error e
    | Except.ok tables2 => Except.ok { settings := settings2, tables := tables2 }

/-- `create_table` with commit / rollback. -/
def create_table (inj : Nat → Bool) (tid name : String)
    (cols dcols : List String) (db : DB) : Except String Unit × DB :=
  runTxn db (create_table_go inj tid name cols dcols db)

/-- Transaction body of `update_table(table_id, table_name, columns,
display_columns)`: SELECT the old columns (statement 0; a missing catalog
row makes `fetchone()['columns']` raise), UPDATE the catalog row
(statement 1); when the column set changed: CREATE the `<tid>_temp` table
(statement 2), copy the shared columns (statement 3, skipped when the
intersection is empty), DROP the old table, RENAME temp to the old name. -/
def update_table_go (inj : Nat → Bool) (tid name : String)
    (cols dcols : List String) (db : DB) : Except String DB :=
  if inj 0 then Except.error injMsg else
  match findSetting db.settings tid with
  | none => Except.error "TypeError: 'NoneType' object is not subscriptable"
  | some td =>
    if inj 1 then Except.error injMsg else
    let db1 : DB := { db with settings := updateSetting db.settings tid name cols dcols }
    if colSetEq cols td.columns then Except.ok db1
    else
      if inj 2 then Except.error injMsg else
      match createPhysical db1.tables (tid ++ "_temp") cols with
      | Except.error e => Except.error e
      | Except.ok tables2 =>
        let common := cols.filter (fun c => td.columns.contains c)
        let afterCopy : Except String (List (String × PhysTable)) :=
          if common.isEmpty then Except.ok tables2
          else if inj 3 then Except.error injMsg
          else copyRows tables2 tid (tid ++ "_temp") common
        match afterCopy with
        | Except.error e => Except.error e
        | Except.ok tables3 =>
          if inj (if common.isEmpty then 3 else 4) then Except.error injMsg else
          match dropPhysical tables3 tid with
          | Except.error e => Except.error e
          | Except.ok tables4 =>
            if inj (if common.isEmpty then 4 else 5) then Except.error injMsg else
            match renamePhysical tables4 (tid ++ "_temp") tid with
            | Except.error e => Except.error e
            | Except.ok tables5 => Except.ok { db1 with tables := tables5 }

/-- `update_table` with commit / rollback. -/
def update_table (inj : Nat → Bool) (tid name : String)
    (cols dcols : List String) (db : DB) : Except String Unit × DB :=
  runTxn db (update_table_go inj tid name cols dcols db)

/-- Transaction body of `delete_table(table_id)`: DELETE the catalog row
(statement 0, deleting zero rows is fine), `DROP TABLE IF EXISTS`
(statement 1). -/
def delete_table_go (inj : Nat → Bool) (tid : String) (db : DB) :
    Except String DB :=
  if inj 0 then Except.error injMsg else
  let settings2 := db.settings.filter (fun td => !(td.table_id = tid : Bool))
  if inj 1 then Except.error injMsg else
  Except.ok { settings := settings2, tables := dropIfExists db.tables tid }

/-- `delete_table` with commit / rollback. -/
def delete_table (inj : Nat → Bool) (tid : String) (db : DB) :
    Except String Unit × DB :=
  runTxn db (delete_table_go inj tid db)

/-- One `UPDATE table_settings SET display_order = ? WHERE table_id = ?`
(zero rows updated when the id is unknown). -/
def applyOrder (settings : List TableDef) (tid : String) (ord : Int) :
    List TableDef :=
  settings.map (fun td =>
    if td.table_id = tid then { td with display_order := ord } else td)

/-- Transaction body of `update_table_order(table_orders)`: one UPDATE per
mapping entry, in mapping order (`k` numbers the statements). -/
def update_table_order_go (inj : Nat → Bool) (k : Nat) :
    List (String × Int) → List TableDef → Except String (List TableDef)
  | [], settings => Except.ok settings
  | (tid, ord) :: rest, settings =>
    if inj k then Except.error injMsg
    else update_table_order_go inj (k + 1) rest (applyOrder settings tid ord)

/-- `update_table_order` with commit / rollback.  Note: it performs no
pantry-first normalization (`ensure_pantry_first` is invoked only by
`init_database`). -/
def update_table_order (inj : Nat → Bool) (orders : List (String × Int))
    (db : DB) : Except String Unit × DB :=
  runTxn db
    (match update_table_order_go inj 0 orders db.settings with
     | Except.error e => Except.error e
     | Except.ok settings2 => Except.ok { db with settings := settings2 })

/-- Stable insertion sort by `display_order` (model of
`ORDER BY display_order`; SQLite's tie order is unspecified, the model
keeps catalog order on ties). -/
def insertByOrder (td : TableDef) : List TableDef → List TableDef
  | [] => [td]
  | hd :: tl =>
    if td.display_order < hd.display_order then td :: hd :: tl
    else hd :: insertByOrder td tl

/-- `SELECT ... ORDER BY display_order`. -/
def sortByOrder : List TableDef → List TableDef
  | [] => []
  | td :: rest => insertByOrder td (sortByOrder rest)

/-- Stable insertion sort by `(display_order, table_id)` (model of
`ORDER BY display_order, table_id` used by `get_tables_config`). -/
def insertByOrderId (td : TableDef) : List TableDef → List TableDef
  | [] => [td]
  | hd :: tl =>
    if td.display_order < hd.display_order
        ∨ (td.display_order = hd.display_order ∧ td.table_id < hd.table_id) then
      td :: hd :: tl
    else hd :: insertByOrderId td tl

/-- The ordered listing of `get_tables_config`
(`ORDER BY display_order, table_id`). -/
def listSettings : List TableDef → List TableDef
  | [] => []
  | td :: rest => insertByOrderId td (listSettings rest)

/-- `ensure_pantry_first()`: when a `pantry` row exists with a nonzero
display_order, set it to 0 and renumber all other rows 1, 2, ... in their
current `ORDER BY display_order` order. -/
def ensure_pantry_first (db : DB) : DB :=
  match findSetting db.settings "pantry" with
  | none => db
  | some td =>
    if td.display_order = 0 then db
    else
      let others := (sortByOrder db.settings).filter
        (fun t => !(t.table_id = "pantry" : Bool))
      let assigned := others.enum.map (fun p => (p.2.table_id, (p.1 : Int) + 1))
      { db with settings := db.settings.map (fun t =>
          if t.table_id = "pantry" then { t with display_order := 0 }
          else
            match assigned.find? (fun a => a.1 = t.table_id) with
            | some a => { t with display_order := a.2 }
            | none => t) }

/-- The two seeded definitions of `init_database` (note the hard-coded
column identifier `dateofpurchase`). -/
def defaultTables : List TableDef :=
  [ { table_id := "pantry", table_name := "Pantry",
      columns := ["item", "dateofpurchase", "amount"],
      display_columns := ["Item", "Date of Purchase", "Amount"],
      display_order := 0 },
    { table_id := "basement_freezer", table_name := "Basement Freezer",
      columns := ["item", "dateofpurchase", "weight", "amount"],
      display_columns := ["Item", "Date of Purchase", "Weight", "Amount"],
      display_order := 1 } ]

/-- `init_database()`: create the catalog table (structural, implicit in the
model), seed the two default tables when the catalog is empty (each with a
`CREATE TABLE IF NOT EXISTS` physical table), then `ensure_pantry_first`. -/
def init_database (db : DB) : DB :=
  let db1 :=
    if db.settings.isEmpty then
      defaultTables.foldl
        (fun acc td =>
          { settings := acc.settings ++ [td],
            tables := createIfNotExists acc.tables td.table_id td.columns })
        db
    else db
  ensure_pantry_first db1

/-! Column-name derivation used inline by the `add_table` and `edit_table`
route handlers.  Python's single-character `str.replace` is a character map,
`replace('$', '')` is a character deletion, and the guarded
`while '__' in s: s = s.replace('__', '_')` loop is iterated pair collapse.
`str.lower` / `str.isalnum` are modelled by `Char.toLower` /
`Char.isAlphanum` (they agree on ASCII, the intended input alphabet). -/

/-- Python `s.replace(a, b)` for single characters. -/
def replaceChar (a b : Char) (l : List Char) : List Char :=
  l.map (fun c => if c = a then b else c)

/-- Python `s.replace(a, '')` for a single character. -/
def removeChar (a : Char) (l : List Char) : List Char :=
  l.filter (fun c => !(c = a : Bool))

/-- Python `''.join(c for c in s if c.isalnum() or c == '_')`. -/
def keepAlnumU (l : List Char) : List Char :=
  l.filter (fun c => c.isAlphanum || c = '_')

/-- Python `'__' in s`. -/
def hasDU : List Char → Bool
  | [] => false
  | [_] => false
  | c1 :: c2 :: rest => (c1 = '_' && c2 = '_') || hasDU (c2 :: rest)

/-- Python `s.replace('__', '_')`: one left-to-right non-overlapping pass. -/
def replaceDU : List Char → List Char
  | [] => []
  | [c] => [c]
  | c1 :: c2 :: rest =>
    if c1 = '_' && c2 = '_' then '_' :: replaceDU rest
    else c1 :: replaceDU (c2 :: rest)

/-- The `while '__' in s` loop, fuelled; each pass strictly shrinks the
string, so `s.length` passes always suffice. -/
def collapseDUFuel : Nat → List Char → List Char
  | 0, l => l
  | fuel + 1, l => if hasDU l then collapseDUFuel fuel (replaceDU l) else l

/-- Collapse every run of underscores to a single one, as the source's
`while` loop does. -/
def collapseDU (l : List Char) : List Char :=
  collapseDUFuel l.length l

/-- Python `s.strip('_')`. -/
def stripUnderscores (l : List Char) : List Char :=
  ((l.dropWhile (fun c => (c = '_' : Bool))).reverse.dropWhile
    (fun c => (c = '_' : Bool))).reverse

/-- The per-label pipeline of `add_table` / `edit_table`:
lower, replace `' '`, `'-'`, `'&'`, `'('`, `')'` with `'_'`, delete `'$'`,
replace `'/'` with `'_'`, keep alphanumerics and underscores, collapse
double underscores, strip underscores at both ends. -/
def deriveChars (l : List Char) : List Char :=
  stripUnderscores (collapseDU (keepAlnumU
    (replaceChar '/' '_' (removeChar '$'
      (replaceChar ')' '_' (replaceChar '(' '_'
        (replaceChar '&' '_' (replaceChar '-' '_'
          (replaceChar ' ' '_' (l.map Char.toLower))))))))))

/-- Storage identifier derived from a human-readable label (code). -/
def derive_column_name (label : String) : String :=
  String.mk (deriveChars label.data)

/-- Modelled from the spec's words, for refinement against
`derive_column_name`: "lowercase the label; replace spaces, hyphens,
ampersands, parentheses, and slashes with underscore; strip characters that
are not alphanumeric or underscore; collapse consecutive underscores; trim
leading/trailing underscores". -/
def specSubst (c : Char) : Char :=
  if c = ' ' ∨ c = '-' ∨ c = '&' ∨ c = '(' ∨ c = ')' ∨ c = '/' then '_' else c

/-- The spec's derivation pipeline. -/
def spec_derive_column_name (label : String) : String :=
  String.mk (stripUnderscores (collapseDU (keepAlnumU
    ((label.data.map Char.toLower).map specSubst))))

/-- Python `s.strip()` on the character list (leading and trailing
whitespace removed). -/
def pyStripChars (l : List Char) : List Char :=
  ((l.dropWhile Char.isWhitespace).reverse.dropWhile Char.isWhitespace).reverse

/-- Python `s.strip()`. -/
def pyStrip (s : String) : String :=
  String.mk (pyStripChars s.data)

/-- Python `s.split(',')` on the character list (`''.split(',') = ['']`). -/
def splitCommaChars (acc : List Char) : List Char → List (List Char)
  | [] => [acc.reverse]
  | c :: rest =>
    if c = ',' then acc.reverse :: splitCommaChars [] rest
    else splitCommaChars (c :: acc) rest

/-- `display_columns_str.split(',')` followed by `.strip()` per piece. -/
def parseLabels (s : String) : List String :=
  (splitCommaChars [] s.data).map (fun cs => String.mk (pyStripChars cs))

/-- Outcome of an `add_table` / `edit_table` form submission (flash
messages). -/
inductive FormResult where
  | missingFields : FormResult
  | countMismatch : FormResult
  | opError (e : String) : FormResult
  | ok : FormResult
deriving DecidableEq, Repr

/-- The `add_table` route handler: required-field check, label parsing and
identifier derivation, the (unreachable) count-mismatch guard, then
`create_table` with its exception caught into a flash message. -/
def add_table_route (tidRaw nameRaw dstr : String) (db : DB) :
    FormResult × DB :=
  let tid := pyStrip tidRaw
  let name := pyStrip nameRaw
  if tid = "" ∨ name = "" ∨ dstr = "" then (FormResult.missingFields, db)
  else
    let dcols := parseLabels dstr
    let cols := dcols.map derive_column_name
    if cols.length ≠ dcols.length then (FormResult.countMismatch, db)
    else
      match create_table injNone tid name cols dcols db with
      | (Except.ok _, db2) => (FormResult.ok, db2)
      | (Except.error e, db2) => (FormResult.opError e, db2)

/-- The `edit_table` route handler: same validation, then `update_table`. -/
def edit_table_route (tidRaw nameRaw dstr : String) (db : DB) :
    FormResult × DB :=
  let tid := pyStrip tidRaw
  let name := pyStrip nameRaw
  if tid = "" ∨ name = "" ∨ dstr = "" then (FormResult.missingFields, db)
  else
    let dcols := parseLabels dstr
    let cols := dcols.map derive_column_name
    if cols.length ≠ dcols.length then (FormResult.countMismatch, db)
    else
      match update_table injNone tid name cols dcols db with
      | (Except.ok _, db2) => (FormResult.ok, db2)
      | (Except.error e, db2) => (FormResult.opError e, db2)

/-! Concrete states used to witness the theorems below. -/

/-- Injection oracle failing exactly at the row-copy statement of a
column-set migration. -/
def injCopyFail : Nat → Bool := fun k => k == 3

/-- A stored row. -/
def rowMilk : Row := [("item", "milk"), ("amount", "1")]

/-- Catalog row of a `fridge` table with columns `[item, amount]`. -/
def fridgeDef : TableDef :=
  { table_id := "fridge", table_name := "Fridge",
    columns := ["item", "amount"], display_columns := ["Item", "Amount"],
    display_order := 0 }

/-- Physical `fridge` table holding one row. -/
def fridgePhys : PhysTable := { fields := ["item", "amount"], rows := [rowMilk] }

/-- State with a single `fridge` table. -/
def dbFridge : DB := { settings := [fridgeDef], tables := [("fridge", fridgePhys)] }

/-- Expected state after migrating `dbFridge` to
`[item, amount, expiration_date]`. -/
def dbFridgeMigrated : DB :=
  { settings := [ { table_id := "fridge", table_name := "Fridge",
                    columns := ["item", "amount", "expiration_date"],
                    display_columns := ["Item", "Amount", "Expiration Date"],
                    display_order := 0 } ],
    tables := [ ("fridge",
      { fields := ["item", "amount", "expiration_date"], rows := [rowMilk] }) ] }

/-- A stored row carrying an expiration date. -/
def rowMilkExp : Row :=
  [("item", "milk"), ("amount", "1"), ("expiration_date", "2024-01-01")]

/-- State with a `fridge` table of columns `[item, amount, expiration_date]`
holding one row. -/
def dbFridgeExp : DB :=
  { settings := [ { table_id := "fridge", table_name := "Fridge",
                    columns := ["item", "amount", "expiration_date"],
                    display_columns := ["Item", "Amount", "Expiration Date"],
                    display_order := 0 } ],
    tables := [ ("fridge",
      { fields := ["item", "amount", "expiration_date"], rows := [rowMilkExp] }) ] }

/-- Catalog row of the seeded `pantry` table. -/
def pantryDef : TableDef :=
  { table_id := "pantry", table_name := "Pantry",
    columns := ["item", "dateofpurchase", "amount"],
    display_columns := ["Item", "Date of Purchase", "Amount"],
    display_order := 0 }

/-- State holding only the `pantry` table (its display_order, 0, is the
catalog maximum). -/
def dbPantryOnly : DB :=
  { settings := [pantryDef],
    tables := [("pantry", { fields := ["item", "dateofpurchase", "amount"], rows := [] })] }

/-- State with `pantry` at rank 0 and `fridge` at rank 1. -/
def dbPantryFridge : DB :=
  { settings := [pantryDef, { fridgeDef with display_order := 1 }],
    tables := [ ("pantry", { fields := ["item", "dateofpurchase", "amount"], rows := [] }),
                ("fridge", fridgePhys) ] }

/-- Expected state after migrating `dbFridge` to the disjoint column set
`[location]`: the row is discarded. -/
def dbFridgeLocation : DB :=
  { settings := [ { table_id := "fridge", table_name := "Fridge",
                    columns := ["location"], display_columns := ["Location"],
                    display_order := 0 } ],
    tables := [ ("fridge", { fields := ["location"], rows := [] }) ] }

/-- Expected state after reordering `dbPantryFridge` with
pantry ↦ 2, fridge ↦ 0. -/
def dbPantryFridgeReordered : DB :=
  { settings := [ { pantryDef with display_order := 2 },
                  { fridgeDef with display_order := 0 } ],
    tables := [ ("pantry", { fields := ["item", "dateofpurchase", "amount"], rows := [] }),
                ("fridge", fridgePhys) ] }

/-! Theorems. -/

/-- C1: every schema-mutation operation (`create_table`, `update_table`,
`delete_table`) is all-or-nothing: whenever a call returns with an error —
in particular when a storage failure is injected at any statement, such as
the copy step of a column-set migration — the state after the call
(catalog row and physical table alike) is exactly the pre-call state, so no
temporary table is left as the live table. -/
theorem schema_mutation_rollback (inj : Nat → Bool) (tid name : String)
    (cols dcols : List String) (db : DB) :
    (∀ e db2, create_table inj tid name cols dcols db = (Except.error e, db2) → db2 = db) ∧
    (∀ e db2, update_table inj tid name cols dcols db = (Except.error e, db2) → db2 = db) ∧
    (∀ e db2, delete_table inj tid db = (Except.error e, db2) → db2 = db) := by
  refine ⟨?_, ?_, ?_⟩
  · intro e db2 h
    unfold create_table runTxn at h
    cases hg : create_table_go inj tid name cols dcols db <;> rw [hg] at h <;> simp_all
  · intro e db2 h
    unfold update_table runTxn at h
    cases hg : update_table_go inj tid name cols dcols db <;> rw [hg] at h <;> simp_all
  · intro e db2 h
    unfold delete_table runTxn at h
    cases hg : delete_table_go inj tid db <;> rw [hg] at h <;> simp_all

/-- Witness for C1: a failure injected at the row-copy statement of a
superset migration of `dbFridge` surfaces as an error and leaves the state
exactly `dbFridge`. -/
theorem schema_mutation_rollback_witness :
    update_table injCopyFail "fridge" "Fridge" ["item", "amount", "expiration_date"]
        ["Item", "Amount", "Expiration Date"] dbFridge = (Except.error injMsg, dbFridge)
    ∧ dbFridge = dbFridge :=
  ⟨by decide,
   (schema_mutation_rollback injCopyFail "fridge" "Fridge"
      ["item", "amount", "expiration_date"] ["Item", "Amount", "Expiration Date"]
      dbFridge).2.1 injMsg dbFridge (by decide)⟩

/-- C4 counterexample: reordering with pantry ↦ 2, fridge ↦ 0 succeeds and
leaves `pantry` at rank 2 — the listing places `fridge` first and `pantry`
last, so no pantry-first normalization happened. -/
theorem reorder_leaves_pantry_displaced :
    (update_table_order injNone [("pantry", 2), ("fridge", 0)] dbPantryFridge).1 = Except.ok ()
    ∧ (update_table_order injNone [("pantry", 2), ("fridge", 0)] dbPantryFridge).2
        = dbPantryFridgeReordered
    ∧ (listSettings dbPantryFridgeReordered.settings).map TableDef.table_id
        = ["fridge", "pantry"]
    ∧ (findSetting dbPantryFridgeReordered.settings "pantry").map TableDef.display_order
        = some 2 := by
  decide

/-- C5: code-bug evaluation. With a single catalog entry at display_order 0
(`MAX(display_order)` is 0, catalog nonempty), `create_table` assigns the
new table display_order 0 instead of max + 1 = 1: `(max_order or -1) + 1`
treats the falsy rank 0 like an empty catalog. -/
theorem create_table_display_order_falsy_bug :
    maxDisplayOrder dbPantryOnly.settings = some 0
    ∧ (create_table injNone "fridge" "Fridge" ["item"] ["Item"] dbPantryOnly).1 = Except.ok ()
    ∧ ((create_table injNone "fridge" "Fridge" ["item"] ["Item"] dbPantryOnly).2.settings.find?
        (fun td => td.table_id = "fridge")).map TableDef.display_order = some 0
    ∧ ((create_table injNone "fridge" "Fridge" ["item"] ["Item"] dbPantryOnly).2.settings.find?
        (fun td => td.table_id = "fridge")).map TableDef.display_order ≠ some 1 := by
  decide

/-- C9 counterexample: first-startup seeding gives the pantry table the
column identifier `dateofpurchase`, not `date_of_purchase` as the claim
states. -/
theorem init_database_column_name_counterexample :
    ((init_database { settings := [], tables := [] }).settings.find?
        (fun td => td.table_id = "pantry")).map TableDef.columns
      = some ["item", "dateofpurchase", "amount"]
    ∧ ((init_database { settings := [], tables := [] }).settings.find?
        (fun td => td.table_id = "pantry")).map TableDef.columns
      ≠ some ["item", "date_of_purchase", "amount"] := by
  decide

/-- C9 amended: on first startup with an empty catalog, initialization
seeds exactly two definitions — `pantry` with columns
`[item, dateofpurchase, amount]` at rank 0 and `basement_freezer`
("Basement Freezer") with columns `[item, dateofpurchase, weight, amount]`
at rank 1 — each backed by a freshly created empty physical table whose
field set equals those columns. -/
theorem init_database_seeds_defaults :
    init_database { settings := [], tables := [] } =
      { settings :=
          [ { table_id := "pantry", table_name := "Pantry",
              columns := ["item", "dateofpurchase", "amount"],
              display_columns := ["Item", "Date of Purchase", "Amount"],
              display_order := 0 },
            { table_id := "basement_freezer", table_name := "Basement Freezer",
              columns := ["item", "dateofpurchase", "weight", "amount"],
              display_columns := ["Item", "Date of Purchase", "Weight", "Amount"],
              display_order := 1 } ],
        tables :=
          [ ("pantry",
             { fields := ["item", "dateofpurchase", "amount"], rows := [] }),
            ("basement_freezer",
             { fields := ["item", "dateofpurchase", "weight", "amount"], rows := [] }) ] } := by
  decide

/-- With no failure injected, `update_table_order_go` applies each UPDATE
statement in turn and succeeds. -/
theorem uto_go_ok (orders : List (String × Int)) :
    ∀ (k : Nat) (s : List TableDef),
      update_table_order_go injNone k orders s
        = Except.ok (orders.foldl (fun s2 p => applyOrder s2 p.1 p.2) s) := by
  induction orders with
  | nil => intro k s; rfl
  | cons p rest ih =>
    intro k s
    simp only [update_table_order_go, injNone, if_neg, Bool.false_eq_true,
      not_false_iff, List.foldl_cons]
    exact ih (k + 1) (applyOrder s p.1 p.2)

/-- Sequentially applying the rank UPDATEs of a duplicate-free mapping
rewrites each catalog row to its mapped rank, leaving the rest alone. -/
theorem foldl_applyOrder_eq (orders : List (String × Int)) :
    ∀ (s : List TableDef), (orders.map Prod.fst).Nodup →
      orders.foldl (fun s2 p => applyOrder s2 p.1 p.2) s
        = s.map (fun td =>
            match orders.find? (fun p => p.1 = td.table_id) with
            | some p => { td with display_order := p.2 }
            | none => td) := by
  induction orders with
  | nil => intro s _; simp
  | cons q rest ih =>
    intro s hnd
    have hnd2 : q.1 ∉ rest.map Prod.fst ∧ (rest.map Prod.fst).Nodup := by
      simpa [List.nodup_cons] using hnd
    have htid : ∀ x ∈ rest, ¬ (x.1 = q.1) := fun x hx heq =>
      hnd2.1 (heq ▸ List.mem_map_of_mem Prod.fst hx)
    have hrest : (rest.map Prod.fst).Nodup := hnd2.2
    simp only [List.foldl_cons]
    rw [ih (applyOrder s q.1 q.2) hrest]
    unfold applyOrder
    rw [List.map_map]
    apply List.map_congr_left
    intro td _
    by_cases hh : td.table_id = q.1
    · have h1 : rest.find? (fun p => p.1 = td.table_id) = none := by
        rw [List.find?_eq_none]
        intro x hx
        simp only [decide_eq_true_eq]
        rw [hh]
        exact fun he => htid x hx he
      have h2 : (q :: rest).find? (fun p => p.1 = td.table_id) = some q := by
        apply List.find?_cons_of_pos
        simp [hh]
      simp only [Function.comp_apply, if_pos hh, h2]
      have h1' : rest.find? (fun p => p.1 = (({ td with display_order := q.2 } : TableDef)).table_id) = none := h1
      simp [h1']
    · have h2 : (q :: rest).find? (fun p => p.1 = td.table_id)
          = rest.find? (fun p => p.1 = td.table_id) := by
        apply List.find?_cons_of_neg
        simp only [decide_eq_true_eq]
        exact fun he => hh he.symm
      simp only [Function.comp_apply, if_neg hh, h2]

/-- C4 amended: `update_table_order` applies exactly the supplied ranks —
every catalog row whose table_id is in the (duplicate-free) mapping gets
the mapped value as its display_order and every other row is unchanged;
no pantry-first normalization is performed (so, per the counterexample,
pantry ↦ 2 really leaves pantry at rank 2). -/
theorem update_table_order_applies_given_ranks
    (orders : List (String × Int)) (db db2 : DB)
    (hnodup : (orders.map Prod.fst).Nodup)
    (h : update_table_order injNone orders db = (Except.ok (), db2)) :
    db2.tables = db.tables ∧
    db2.settings = db.settings.map (fun td =>
      match orders.find? (fun p => p.1 = td.table_id) with
      | some p => { td with display_order := p.2 }
      | none => td) := by
  unfold update_table_order runTxn at h
  rw [uto_go_ok] at h
  simp only [Prod.mk.injEq] at h
  rw [← h.2]
  exact ⟨rfl, foldl_applyOrder_eq orders db.settings hnodup⟩

/-- Witness for the amended C4, at the counterexample's own input. -/
theorem update_table_order_applies_given_ranks_witness :
    dbPantryFridgeReordered.tables = dbPantryFridge.tables ∧
    dbPantryFridgeReordered.settings = dbPantryFridge.settings.map (fun td =>
      match [("pantry", (2 : Int)), ("fridge", 0)].find? (fun p => p.1 = td.table_id) with
      | some p => { td with display_order := p.2 }
      | none => td) :=
  update_table_order_applies_given_ranks [("pantry", 2), ("fridge", 0)]
    dbPantryFridge dbPantryFridgeReordered (by decide) (by decide)

theorem self_ne_append_temp (tid : String) : tid ≠ tid ++ "_temp" := by
  intro h
  have hlen := congrArg String.length h
  rw [String.length_append] at hlen
  simp at hlen
  exact absurd hlen (by decide)

theorem createPhysical_ok {T T2 : List (String × PhysTable)} {tid : String}
    {cols : List String}
    (h : createPhysical T tid cols = Except.ok T2) :
    T.find? (fun p => p.1 = tid) = none ∧ hasDupB cols = false
      ∧ T2 = T ++ [(tid, { fields := cols, rows := [] })] := by
  unfold createPhysical at h
  split_ifs at h with h1 h2
  refine ⟨?_, ?_, ?_⟩
  · rw [← Option.not_isSome_iff_eq_none]
    simpa using h1
  · simpa using h2
  · injection h with h
    exact h.symm

theorem copyRows_ok {T T3 : List (String × PhysTable)} {src dst : String}
    {common : List String}
    (h : copyRows T src dst common = Except.ok T3) :
    ∃ ptS ptD, findPhys T src = some ptS ∧ findPhys T dst = some ptD
      ∧ common.all (fun c => ptS.fields.contains c) = true
      ∧ common.all (fun c => ptD.fields.contains c) = true
      ∧ T3 = updatePhys T dst { ptD with rows := ptD.rows ++ ptS.rows.map (projectRow common) } := by
  unfold copyRows at h
  cases hS : findPhys T src with
  | none => rw [hS] at h; cases h
  | some ptS =>
    rw [hS] at h
    cases hD : findPhys T dst with
    | none => rw [hD] at h; cases h
    | some ptD =>
      rw [hD] at h
      dsimp only at h
      split_ifs at h with h1 h2
      refine ⟨ptS, ptD, rfl, rfl, ?_, ?_, ?_⟩
      · simpa using h1
      · simpa using h2
      · injection h with h
        exact h.symm

theorem dropPhysical_ok {T T4 : List (String × PhysTable)} {tid : String}
    (h : dropPhysical T tid = Except.ok T4) :
    (T.find? (fun p => p.1 = tid)).isSome = true
      ∧ T4 = T.filter (fun p => !(p.1 = tid : Bool)) := by
  unfold dropPhysical at h
  split_ifs at h with h1
  refine ⟨by simpa using h1, ?_⟩
  injection h with h
  exact h.symm

theorem renamePhysical_ok {T T5 : List (String × PhysTable)} {src dst : String}
    (h : renamePhysical T src dst = Except.ok T5) :
    T.find? (fun p => p.1 = dst) = none
      ∧ T5 = T.map (fun p => if p.1 = src then (dst, p.2) else p) := by
  unfold renamePhysical at h
  split_ifs at h with h1 h2
  refine ⟨?_, ?_⟩
  · rw [← Option.not_isSome_iff_eq_none]
    simpa using h2
  · injection h with h
    exact h.symm

theorem findPhys_append_single_ne (T : List (String × PhysTable))
    (tmp tid : String) (pt : PhysTable) (h : tid ≠ tmp) :
    findPhys (T ++ [(tmp, pt)]) tid = findPhys T tid := by
  unfold findPhys
  rw [List.find?_append]
  cases hT : T.find? (fun p => p.1 = tid) with
  | some x => simp
  | none => simp [List.find?_singleton, Ne.symm h]

theorem findPhys_append_single_self (T : List (String × PhysTable))
    (tmp : String) (pt : PhysTable)
    (h : T.find? (fun p => p.1 = tmp) = none) :
    findPhys (T ++ [(tmp, pt)]) tmp = some pt := by
  unfold findPhys
  rw [List.find?_append, h]
  simp [List.find?_singleton]

theorem findPhys_updatePhys_self (T : List (String × PhysTable))
    (dst : String) (q pt : PhysTable)
    (h : findPhys T dst = some q) :
    findPhys (updatePhys T dst pt) dst = some pt := by
  induction T with
  | nil => simp [findPhys] at h
  | cons a T ih =>
    by_cases ha : a.1 = dst
    · simp [updatePhys, findPhys, List.find?_cons, ha]
    · simp only [findPhys, updatePhys, List.map_cons, if_neg ha] at h ⊢
      rw [List.find?_cons_of_neg _ (by simpa using ha)] at h
      rw [List.find?_cons_of_neg _ (by simpa using ha)]
      exact ih h

theorem findPhys_updatePhys_ne (T : List (String × PhysTable))
    (dst tid : String) (pt : PhysTable) (h : tid ≠ dst) :
    findPhys (updatePhys T dst pt) tid = findPhys T tid := by
  induction T with
  | nil => rfl
  | cons a T ih =>
    by_cases ha : a.1 = dst
    · simp only [findPhys, updatePhys, List.map_cons, if_pos ha] at ih ⊢
      rw [List.find?_cons_of_neg _ (by simp [Ne.symm h]),
        List.find?_cons_of_neg _ (by simp [ha, Ne.symm h])]
      exact ih
    · simp only [findPhys, updatePhys, List.map_cons, if_neg ha] at ih ⊢
      by_cases hat : a.1 = tid
      · rw [List.find?_cons_of_pos _ (by simp [hat]),
          List.find?_cons_of_pos _ (by simp [hat])]
      · rw [List.find?_cons_of_neg _ (by simpa using hat),
          List.find?_cons_of_neg _ (by simpa using hat)]
        exact ih

theorem find?_filter_out_self (T : List (String × PhysTable)) (tid : String) :
    (T.filter (fun p => !(p.1 = tid : Bool))).find? (fun p => p.1 = tid) = none := by
  rw [List.find?_filter, List.find?_eq_none]
  intro x hx
  simp

theorem findPhys_filter_out_ne (T : List (String × PhysTable))
    (tid tid2 : String) (h : tid2 ≠ tid) :
    findPhys (T.filter (fun p => !(p.1 = tid : Bool))) tid2 = findPhys T tid2 := by
  unfold findPhys
  rw [List.find?_filter]
  have heq : (fun (a : String × PhysTable) => (!(a.1 = tid : Bool) ∧ (a.1 = tid2 : Bool) : Bool))
      = (fun a => (a.1 = tid2 : Bool)) := by
    funext a
    by_cases hc : a.1 = tid2 <;> simp [hc, h]
  rw [heq]

theorem findPhys_rename_self (T : List (String × PhysTable))
    (src dst : String) (pt : PhysTable)
    (hdst : T.find? (fun p => p.1 = dst) = none)
    (hsrc : findPhys T src = some pt) :
    findPhys (T.map (fun p => if p.1 = src then (dst, p.2) else p)) dst = some pt := by
  induction T with
  | nil => simp [findPhys] at hsrc
  | cons a T ih =>
    have hdst' := List.find?_eq_none.mp hdst
    have hdhead : ¬ (a.1 = dst) := by
      have := hdst' a (List.mem_cons_self a T)
      simpa using this
    have hdtail : T.find? (fun p => p.1 = dst) = none :=
      List.find?_eq_none.mpr (fun x hx => hdst' x (List.mem_cons_of_mem a hx))
    by_cases ha : a.1 = src
    · simp only [findPhys, List.map_cons, if_pos ha] at hsrc ⊢
      rw [List.find?_cons_of_pos _ (by simpa using ha)] at hsrc
      simp only [Option.map_some'] at hsrc
      rw [List.find?_cons_of_pos _ (by simp)]
      simp [hsrc]
    · simp only [findPhys, List.map_cons, if_neg ha] at hsrc ⊢
      rw [List.find?_cons_of_neg _ (by simpa using ha)] at hsrc
      rw [List.find?_cons_of_neg _ (by simpa using hdhead)]
      exact ih hdtail hsrc



theorem update_table_migrate
    (tid name : String) (cols dcols : List String) (db db2 : DB) (td : TableDef)
    (hfind : findSetting db.settings tid = some td)
    (hset : colSetEq cols td.columns = false)
    (hrun : update_table injNone tid name cols dcols db = (Except.ok (), db2)) :
    ∃ pt, findPhys db.tables tid = some pt ∧ hasDupB cols = false ∧
      db2.settings = updateSetting db.settings tid name cols dcols ∧
      findPhys db2.tables tid = some
        { fields := cols,
          rows := if (cols.filter (fun c => td.columns.contains c)).isEmpty then []
                  else pt.rows.map (projectRow (cols.filter (fun c => td.columns.contains c))) } := by
  have hne : tid ≠ tid ++ "_temp" := self_ne_append_temp tid
  have hgo : update_table_go injNone tid name cols dcols db = Except.ok db2 := by
    unfold update_table runTxn at hrun
    cases hg : update_table_go injNone tid name cols dcols db <;> rw [hg] at hrun <;> simp_all
  unfold update_table_go at hgo
  rw [hfind] at hgo
  simp only [injNone, Bool.false_eq_true, if_false, hset] at hgo
  cases hcr : createPhysical db.tables (tid ++ "_temp") cols with
  | error e => rw [hcr] at hgo; simp at hgo
  | ok T2 =>
    rw [hcr] at hgo
    dsimp only at hgo
    obtain ⟨hTmpNone, hDupF, hT2⟩ := createPhysical_ok hcr
    subst hT2
    by_cases hce : ((cols.filter (fun c => td.columns.contains c)).isEmpty : Bool) = true
    · rw [if_pos hce] at hgo
      dsimp only at hgo
      cases hdp : dropPhysical (db.tables ++ [(tid ++ "_temp", { fields := cols, rows := [] })]) tid with
      | error e => rw [hdp] at hgo; simp at hgo
      | ok T4 =>
        rw [hdp] at hgo
        dsimp only at hgo
        obtain ⟨hSome, hT4⟩ := dropPhysical_ok hdp
        cases hpt : findPhys db.tables tid with
        | none =>
          exfalso
          have hap : findPhys (db.tables ++ [(tid ++ "_temp", ({ fields := cols, rows := [] } : PhysTable))]) tid = none := by
            rw [findPhys_append_single_ne _ _ _ _ hne, hpt]
          have : (db.tables ++ [(tid ++ "_temp", ({ fields := cols, rows := [] } : PhysTable))]).find?
              (fun p => p.1 = tid) = none := Option.map_eq_none'.mp hap
          rw [this] at hSome
          simp at hSome
        | some pt =>
          cases hrn : renamePhysical T4 (tid ++ "_temp") tid with
          | error e => rw [hrn] at hgo; simp at hgo
          | ok T5 =>
            rw [hrn] at hgo
            dsimp only at hgo
            injection hgo with hgo
            obtain ⟨hDstNone, hT5⟩ := renamePhysical_ok hrn
            subst hT4 hT5
            refine ⟨pt, rfl, hDupF, ?_, ?_⟩
            · rw [← hgo]
            · rw [← hgo, if_pos hce]
              apply findPhys_rename_self
              · exact find?_filter_out_self _ tid
              · rw [findPhys_filter_out_ne _ tid (tid ++ "_temp") (Ne.symm hne)]
                exact findPhys_append_single_self _ _ _ hTmpNone
    · rw [if_neg hce] at hgo
      cases hcp : copyRows (db.tables ++ [(tid ++ "_temp", { fields := cols, rows := [] })]) tid
          (tid ++ "_temp") (cols.filter (fun c => td.columns.contains c)) with
      | error e => rw [hcp] at hgo; simp at hgo
      | ok T3 =>
        rw [hcp] at hgo
        dsimp only at hgo
        obtain ⟨ptS, ptD, hS, hD, hchk1, hchk2, hT3⟩ := copyRows_ok hcp
        rw [findPhys_append_single_ne _ _ _ _ hne] at hS
        have hD2 : ptD = { fields := cols, rows := [] } := by
          have hx := findPhys_append_single_self db.tables (tid ++ "_temp")
            { fields := cols, rows := [] } hTmpNone
          rw [hD] at hx
          injection hx with hx
        subst hD2
        cases hdp : dropPhysical T3 tid with
        | error e => rw [hdp] at hgo; simp at hgo
        | ok T4 =>
          rw [hdp] at hgo
          dsimp only at hgo
          obtain ⟨hSome, hT4⟩ := dropPhysical_ok hdp
          cases hrn : renamePhysical T4 (tid ++ "_temp") tid with
          | error e => rw [hrn] at hgo; simp at hgo
          | ok T5 =>
            rw [hrn] at hgo
            dsimp only at hgo
            injection hgo with hgo
            obtain ⟨hDstNone, hT5⟩ := renamePhysical_ok hrn
            subst hT3 hT4 hT5
            refine ⟨ptS, hS, hDupF, ?_, ?_⟩
            · rw [← hgo]
            · rw [← hgo, if_neg hce]
              apply findPhys_rename_self
              · exact find?_filter_out_self _ tid
              · rw [findPhys_filter_out_ne _ tid (tid ++ "_temp") (Ne.symm hne)]
                have hx := findPhys_updatePhys_self
                  (db.tables ++ [(tid ++ "_temp", { fields := cols, rows := [] })])
                  (tid ++ "_temp") { fields := cols, rows := [] }
                  { fields := cols,
                    rows := [] ++ ptS.rows.map (projectRow (cols.filter (fun c => td.columns.contains c))) }
                  (findPhys_append_single_self _ _ _ hTmpNone)
                simpa using hx


theorem hasDupB_eq_false_iff (l : List String) : hasDupB l = false ↔ l.Nodup := by
  induction l with
  | nil => simp [hasDupB]
  | cons c rest ih =>
    simp [hasDupB, List.nodup_cons, ih, List.contains]

theorem colSetEq_true_iff (a b : List String) :
    colSetEq a b = true ↔ (∀ c ∈ a, c ∈ b) ∧ (∀ c ∈ b, c ∈ a) := by
  simp [colSetEq, List.all_eq_true, List.contains]

theorem update_table_same_set_eq (tid name : String) (cols dcols : List String)
    (db : DB) (td : TableDef)
    (hfind : findSetting db.settings tid = some td)
    (hset : colSetEq cols td.columns = true) :
    update_table injNone tid name cols dcols db =
      (Except.ok (), { settings := updateSetting db.settings tid name cols dcols,
                       tables := db.tables }) := by
  unfold update_table update_table_go runTxn
  rw [hfind]
  simp [injNone, hset]

theorem rowGet_projectRow_not_mem {common : List String} {r : Row} {c : String}
    (h : c ∉ common) : rowGet (projectRow common r) c = none := by
  induction common with
  | nil => rfl
  | cons d rest ih =>
    have hcd : c ≠ d := fun he => h (he ▸ List.mem_cons_self d rest)
    have hcr : c ∉ rest := fun hm => h (List.mem_cons_of_mem d hm)
    simp only [projectRow, List.filterMap_cons]
    cases hg : (rowGet r d).map (fun v => (d, v)) with
    | none => exact ih hcr
    | some pr =>
      have hpr : pr.1 = d := by
        cases hg0 : rowGet r d with
        | none => rw [hg0] at hg; cases hg
        | some v => rw [hg0] at hg; injection hg with hg; rw [← hg]
      unfold rowGet
      rw [List.find?_cons_of_neg _ (by simp [hpr, Ne.symm hcd])]
      exact ih hcr

theorem rowGet_projectRow_mem {common : List String} {r : Row} {c : String}
    (hnd : common.Nodup) (h : c ∈ common) :
    rowGet (projectRow common r) c = rowGet r c := by
  induction common with
  | nil => cases h
  | cons d rest ih =>
    obtain ⟨hdnin, hnd2⟩ := List.nodup_cons.mp hnd
    by_cases hcd : c = d
    · subst hcd
      simp only [projectRow, List.filterMap_cons]
      cases hg : rowGet r c with
      | none =>
        simp only [Option.map_none']
        exact rowGet_projectRow_not_mem hdnin
      | some v =>
        simp only [Option.map_some']
        unfold rowGet
        rw [List.find?_cons_of_pos _ (by simp)]
        simp
    · have hcr : c ∈ rest := (List.mem_cons.mp h).resolve_left hcd
      simp only [projectRow, List.filterMap_cons]
      cases hg : rowGet r d with
      | none => exact ih hnd2 hcr
      | some v =>
        simp only [Option.map_some']
        unfold rowGet
        rw [List.find?_cons_of_neg _ (by simp [Ne.symm hcd])]
        exact ih hnd2 hcr



/-- C2: for every successful `update_table` call whose new column set is a
superset of the (nonempty) old column set, every pre-existing row of the
physical table survives into the post-migration table with exactly the same
values in every old column, and every column present only in the new set is
NULL (empty/absent) on each pre-existing row. -/
theorem update_table_superset_preserves_rows
    (tid name : String) (cols dcols : List String) (db db2 : DB)
    (td : TableDef) (pt : PhysTable)
    (hfind : findSetting db.settings tid = some td)
    (hpt : findPhys db.tables tid = some pt)
    (hnonempty : td.columns ≠ [])
    (hsup : ∀ c ∈ td.columns, c ∈ cols)
    (hrun : update_table injNone tid name cols dcols db = (Except.ok (), db2)) :
    ∃ pt2, findPhys db2.tables tid = some pt2 ∧
      pt2.rows.length = pt.rows.length ∧
      ∀ r ∈ pt.rows, ∃ r2 ∈ pt2.rows,
        (∀ c ∈ td.columns, rowGet r2 c = rowGet r c) ∧
        (∀ c ∈ cols, c ∉ td.columns → rowGet r2 c = none) := by
  by_cases hset : colSetEq cols td.columns = true
  · have heq := update_table_same_set_eq tid name cols dcols db td hfind hset
    rw [heq] at hrun
    simp only [Prod.mk.injEq] at hrun
    obtain ⟨-, hdb2⟩ := hrun
    refine ⟨pt, ?_, rfl, ?_⟩
    · rw [← hdb2]
      exact hpt
    · intro r hr
      refine ⟨r, hr, fun c hc => rfl, fun c hcc hcn => ?_⟩
      exact absurd (((colSetEq_true_iff _ _).mp hset).1 c hcc) hcn
  · have hset2 : colSetEq cols td.columns = false := by
      simpa using hset
    obtain ⟨pt0, hpt0, hDupF, hsettings, hphys⟩ :=
      update_table_migrate tid name cols dcols db db2 td hfind hset2 hrun
    rw [hpt] at hpt0
    injection hpt0 with hpp
    subst hpp
    have hnd : (cols.filter (fun c => td.columns.contains c)).Nodup :=
      List.Nodup.filter _ ((hasDupB_eq_false_iff cols).mp hDupF)
    have hcne : (cols.filter (fun c => td.columns.contains c)).isEmpty = false := by
      obtain ⟨c0, hc0⟩ := List.exists_mem_of_ne_nil td.columns hnonempty
      rw [List.isEmpty_eq_false]
      intro hnil
      have hmem : c0 ∈ cols.filter (fun c => td.columns.contains c) :=
        List.mem_filter.mpr ⟨hsup c0 hc0, by simp [List.contains, hc0]⟩
      rw [hnil] at hmem
      cases hmem
    rw [hcne] at hphys
    simp only [Bool.false_eq_true, if_false] at hphys
    refine ⟨_, hphys, by simp, ?_⟩
    intro r hr
    refine ⟨projectRow (cols.filter (fun c => td.columns.contains c)) r,
      List.mem_map_of_mem _ hr, ?_, ?_⟩
    · intro c hc
      exact rowGet_projectRow_mem hnd
        (List.mem_filter.mpr ⟨hsup c hc, by simp [List.contains, hc]⟩)
    · intro c hcc hcn
      apply rowGet_projectRow_not_mem
      intro hmem
      have := (List.mem_filter.mp hmem).2
      simp [List.contains] at this
      exact hcn this



/-- C3: for every successful `update_table` call where some old column is
absent from the new column set, the post-migration physical table's field
list equals the new column set and no row retains any value outside the new
columns (the dropped columns' values are gone), while each surviving row
keeps its values for the columns common to both sets. -/
theorem update_table_drop_columns_lossy
    (tid name : String) (cols dcols : List String) (db db2 : DB)
    (td : TableDef) (pt : PhysTable) (c0 : String)
    (hfind : findSetting db.settings tid = some td)
    (hpt : findPhys db.tables tid = some pt)
    (hc0 : c0 ∈ td.columns) (hc0n : c0 ∉ cols)
    (hrun : update_table injNone tid name cols dcols db = (Except.ok (), db2)) :
    ∃ pt2, findPhys db2.tables tid = some pt2 ∧
      pt2.fields = cols ∧
      (∀ r2 ∈ pt2.rows, ∀ c, c ∉ cols → rowGet r2 c = none) ∧
      (cols.filter (fun c => td.columns.contains c) ≠ [] →
        pt2.rows.length = pt.rows.length ∧
        ∀ r ∈ pt.rows, ∃ r2 ∈ pt2.rows,
          ∀ c ∈ cols.filter (fun c => td.columns.contains c), rowGet r2 c = rowGet r c) := by
  have hset2 : colSetEq cols td.columns = false := by
    cases hs : colSetEq cols td.columns
    · rfl
    · exact absurd (((colSetEq_true_iff _ _).mp hs).2 c0 hc0) hc0n
  obtain ⟨pt0, hpt0, hDupF, hsettings, hphys⟩ :=
    update_table_migrate tid name cols dcols db db2 td hfind hset2 hrun
  rw [hpt] at hpt0
  injection hpt0 with hpp
  subst hpp
  have hnd : (cols.filter (fun c => td.columns.contains c)).Nodup :=
    List.Nodup.filter _ ((hasDupB_eq_false_iff cols).mp hDupF)
  by_cases hce : ((cols.filter (fun c => td.columns.contains c)).isEmpty : Bool) = true
  · rw [hce] at hphys
    simp only [if_true] at hphys
    refine ⟨_, hphys, rfl, ?_, ?_⟩
    · intro r2 hr2
      cases hr2
    · intro hne2
      exact absurd (List.isEmpty_iff.mp hce) hne2
  · have hce2 : (cols.filter (fun c => td.columns.contains c)).isEmpty = false := by
      simpa using hce
    rw [hce2] at hphys
    simp only [Bool.false_eq_true, if_false] at hphys
    refine ⟨_, hphys, rfl, ?_, ?_⟩
    · intro r2 hr2 c hcn
      obtain ⟨r, hr, hproj⟩ := List.mem_map.mp hr2
      rw [← hproj]
      apply rowGet_projectRow_not_mem
      intro hmem
      exact hcn (List.mem_filter.mp hmem).1
    · intro hne2
      refine ⟨by simp, ?_⟩
      intro r hr
      refine ⟨projectRow (cols.filter (fun c => td.columns.contains c)) r,
        List.mem_map_of_mem _ hr, ?_⟩
      intro c hc
      exact rowGet_projectRow_mem hnd hc

/-- C10: for every successful `update_table` call on a table whose new
column set shares no identifier with the (nonempty) old column set, the
post-migration physical table has the new field set and zero rows: the
pre-existing rows are discarded entirely, not carried over as empty rows. -/
theorem update_table_disjoint_clears_rows
    (tid name : String) (cols dcols : List String) (db db2 : DB)
    (td : TableDef) (pt : PhysTable)
    (hfind : findSetting db.settings tid = some td)
    (hpt : findPhys db.tables tid = some pt)
    (hrows : pt.rows ≠ [])
    (hold : td.columns ≠ [])
    (hdisj : ∀ c ∈ cols, c ∉ td.columns)
    (hrun : update_table injNone tid name cols dcols db = (Except.ok (), db2)) :
    ∃ pt2, findPhys db2.tables tid = some pt2 ∧ pt2.fields = cols ∧ pt2.rows = [] := by
  have hset2 : colSetEq cols td.columns = false := by
    cases hs : colSetEq cols td.columns
    · rfl
    · exfalso
      obtain ⟨c0, hc0⟩ := List.exists_mem_of_ne_nil td.columns hold
      exact hdisj c0 (((colSetEq_true_iff _ _).mp hs).2 c0 hc0) hc0
  obtain ⟨pt0, hpt0, hDupF, hsettings, hphys⟩ :=
    update_table_migrate tid name cols dcols db db2 td hfind hset2 hrun
  have hce : (cols.filter (fun c => td.columns.contains c)).isEmpty = true := by
    rw [List.isEmpty_iff]
    rw [List.filter_eq_nil_iff]
    intro c hc
    simp [List.contains]
    exact hdisj c hc
  rw [hce] at hphys
  simp only [if_true] at hphys
  exact ⟨_, hphys, rfl, rfl⟩

/-- Witness for C2: migrating `dbFridge` from `[item, amount]` to
`[item, amount, expiration_date]` keeps the milk row's old values and
leaves `expiration_date` absent. -/
theorem update_table_superset_preserves_rows_witness :
    ∃ pt2, findPhys dbFridgeMigrated.tables "fridge" = some pt2 ∧
      pt2.rows.length = fridgePhys.rows.length ∧
      ∀ r ∈ fridgePhys.rows, ∃ r2 ∈ pt2.rows,
        (∀ c ∈ fridgeDef.columns, rowGet r2 c = rowGet r c) ∧
        (∀ c ∈ ["item", "amount", "expiration_date"], c ∉ fridgeDef.columns → rowGet r2 c = none) :=
  update_table_superset_preserves_rows "fridge" "Fridge"
    ["item", "amount", "expiration_date"] ["Item", "Amount", "Expiration Date"]
    dbFridge dbFridgeMigrated fridgeDef fridgePhys
    (by decide) (by decide) (by decide) (by decide) (by decide)

/-- Witness for C3: migrating `dbFridgeExp` from
`[item, amount, expiration_date]` down to `[item, amount]` keeps the shared
values and drops `expiration_date` without trace. -/
theorem update_table_drop_columns_lossy_witness :
    ∃ pt2, findPhys dbFridge.tables "fridge" = some pt2 ∧
      pt2.fields = ["item", "amount"] ∧
      (∀ r2 ∈ pt2.rows, ∀ c, c ∉ ["item", "amount"] → rowGet r2 c = none) ∧
      (["item", "amount"].filter
          (fun c => ["item", "amount", "expiration_date"].contains c) ≠ [] →
        pt2.rows.length = ([rowMilkExp] : List Row).length ∧
        ∀ r ∈ ([rowMilkExp] : List Row), ∃ r2 ∈ pt2.rows,
          ∀ c ∈ ["item", "amount"].filter
            (fun c => ["item", "amount", "expiration_date"].contains c),
            rowGet r2 c = rowGet r c) :=
  update_table_drop_columns_lossy "fridge" "Fridge" ["item", "amount"]
    ["Item", "Amount"] dbFridgeExp dbFridge
    { table_id := "fridge", table_name := "Fridge",
      columns := ["item", "amount", "expiration_date"],
      display_columns := ["Item", "Amount", "Expiration Date"],
      display_order := 0 }
    { fields := ["item", "amount", "expiration_date"], rows := [rowMilkExp] }
    "expiration_date"
    (by decide) (by decide) (by decide) (by decide) (by decide)

/-- Witness for C10: migrating `dbFridge` to the disjoint column set
`[location]` yields a table with zero rows. -/
theorem update_table_disjoint_clears_rows_witness :
    ∃ pt2, findPhys dbFridgeLocation.tables "fridge" = some pt2 ∧
      pt2.fields = ["location"] ∧ pt2.rows = [] :=
  update_table_disjoint_clears_rows "fridge" "Fridge" ["location"] ["Location"]
    dbFridge dbFridgeLocation fridgeDef fridgePhys
    (by decide) (by decide) (by decide) (by decide) (by decide) (by decide)

/-- C6: for every `update_table` call whose new column identifier set equals
the old one (order and labels may differ), the call succeeds without
touching physical storage at all — every physical table, its field list,
and all row data are identical — and only the catalog row (name, column
list, label list) is rewritten. -/
theorem update_table_same_set_catalog_only (tid name : String)
    (cols dcols : List String) (db : DB) (td : TableDef)
    (hfind : findSetting db.settings tid = some td)
    (hset : colSetEq cols td.columns = true) :
    update_table injNone tid name cols dcols db =
      (Except.ok (), { settings := updateSetting db.settings tid name cols dcols,
                       tables := db.tables }) :=
  update_table_same_set_eq tid name cols dcols db td hfind hset

/-- Witness for C6: reordering `fridge`'s columns to `[amount, item]`
succeeds, rewrites only the catalog row, and leaves the physical tables
untouched. -/
theorem update_table_same_set_catalog_only_witness :
    update_table injNone "fridge" "Fridge" ["amount", "item"] ["Amount", "Item"] dbFridge =
      (Except.ok (), { settings := updateSetting dbFridge.settings "fridge" "Fridge"
                         ["amount", "item"] ["Amount", "Item"],
                       tables := dbFridge.tables }) :=
  update_table_same_set_catalog_only "fridge" "Fridge" ["amount", "item"]
    ["Amount", "Item"] dbFridge fridgeDef (by decide) (by decide)

/-- The replace / delete / keep stages distribute over append. -/
theorem chainStages_append (l1 l2 : List Char) :
    keepAlnumU (replaceChar '/' '_' (removeChar '$'
      (replaceChar ')' '_' (replaceChar '(' '_'
        (replaceChar '&' '_' (replaceChar '-' '_'
          (replaceChar ' ' '_' (l1 ++ l2)))))))) =
    keepAlnumU (replaceChar '/' '_' (removeChar '$'
      (replaceChar ')' '_' (replaceChar '(' '_'
        (replaceChar '&' '_' (replaceChar '-' '_'
          (replaceChar ' ' '_' l1))))))) ++
    keepAlnumU (replaceChar '/' '_' (removeChar '$'
      (replaceChar ')' '_' (replaceChar '(' '_'
        (replaceChar '&' '_' (replaceChar '-' '_'
          (replaceChar ' ' '_' l2))))))) := by
  simp [replaceChar, removeChar, keepAlnumU, List.map_append, List.filter_append]

/-- `keepAlnumU` distributes over append. -/
theorem keepAlnumU_append (a b : List Char) :
    keepAlnumU (a ++ b) = keepAlnumU a ++ keepAlnumU b := by
  simp [keepAlnumU, List.filter_append]

theorem chain_eq_specSubst (l : List Char) :
    keepAlnumU (replaceChar '/' '_' (removeChar '$'
      (replaceChar ')' '_' (replaceChar '(' '_'
        (replaceChar '&' '_' (replaceChar '-' '_'
          (replaceChar ' ' '_' l))))))) = keepAlnumU (l.map specSubst) := by
  induction l with
  | nil => rfl
  | cons c t ih =>
    have hc : (c :: t) = [c] ++ t := rfl
    rw [hc]
    rw [chainStages_append]
    rw [List.map_append]
    rw [keepAlnumU_append]
    refine congr (congrArg (fun a b : List Char => a ++ b) ?_) ih
    rcases eq_or_ne c ' ' with h | h1
    · subst h; decide
    rcases eq_or_ne c '-' with h | h2
    · subst h; decide
    rcases eq_or_ne c '&' with h | h3
    · subst h; decide
    rcases eq_or_ne c '(' with h | h4
    · subst h; decide
    rcases eq_or_ne c ')' with h | h5
    · subst h; decide
    rcases eq_or_ne c '$' with h | h6
    · subst h; decide
    rcases eq_or_ne c '/' with h | h7
    · subst h; decide
    simp [replaceChar, removeChar, keepAlnumU, specSubst, h1, h2, h3, h4, h5, h6, h7]

/-- C7: the per-label identifier derivation of `add_table` / `edit_table`
equals the spec's pipeline (lowercase; replace space, hyphen, ampersand,
parentheses, slash with underscore; strip characters that are not
alphanumeric or underscore; collapse consecutive underscores; trim leading
and trailing underscores) on every label; in particular the label
"Best-By (Date)" derives the identifier `best_by_date`. -/
theorem derive_column_name_matches_spec_pipeline :
    (∀ label : String, derive_column_name label = spec_derive_column_name label)
    ∧ derive_column_name "Best-By (Date)" = "best_by_date" := by
  constructor
  · intro label
    unfold derive_column_name spec_derive_column_name deriveChars
    rw [chain_eq_specSubst]
  · decide

/-- C8 counterexample: the labels "Item, Item, Amount" derive the duplicate
identifier list `[item, item, amount]`, yet `edit_table` on a `fridge` table
with columns `[item, amount]` succeeds (the duplicated set equals the old
set, so only the catalog is rewritten) — no InvalidSchema failure, and the
table is modified. -/
theorem edit_table_duplicate_identifiers_accepted :
    (edit_table_route "fridge" "Fridge" "Item, Item, Amount" dbFridge).1 = FormResult.ok
    ∧ (findSetting (edit_table_route "fridge" "Fridge" "Item, Item, Amount" dbFridge).2.settings
        "fridge").map TableDef.columns = some ["item", "item", "amount"]
    ∧ (edit_table_route "fridge" "Fridge" "Item, Item, Amount" dbFridge).2 ≠ dbFridge
    ∧ hasDupB ((parseLabels "Item, Item, Amount").map derive_column_name) = true := by
  decide

/-- C8 amended: the derived identifier count always equals the supplied
label count, so the count-mismatch guard can never fire; duplicate derived
identifiers are not rejected by validation: a create-table call whose
derived identifiers contain a duplicate fails with a storage-layer error
(duplicate column or existing table) leaving the state unchanged, while an
edit-table call whose duplicated identifiers still have an unchanged
identifier set succeeds, rewriting only the catalog. -/
theorem label_validation_amended :
    (∀ tid name dstr db,
        (add_table_route tid name dstr db).1 ≠ FormResult.countMismatch
      ∧ (edit_table_route tid name dstr db).1 ≠ FormResult.countMismatch)
    ∧ (∀ tid name dstr db,
        ¬(pyStrip tid = "" ∨ pyStrip name = "" ∨ dstr = "") →
        hasDupB ((parseLabels dstr).map derive_column_name) = true →
        ∃ e, add_table_route tid name dstr db = (FormResult.opError e, db))
    ∧ (∀ tid name dstr db td,
        ¬(pyStrip tid = "" ∨ pyStrip name = "" ∨ dstr = "") →
        hasDupB ((parseLabels dstr).map derive_column_name) = true →
        findSetting db.settings (pyStrip tid) = some td →
        colSetEq ((parseLabels dstr).map derive_column_name) td.columns = true →
        edit_table_route tid name dstr db =
          (FormResult.ok,
           { settings := updateSetting db.settings (pyStrip tid) (pyStrip name)
               ((parseLabels dstr).map derive_column_name) (parseLabels dstr),
             tables := db.tables })) := by
  refine ⟨?_, ?_, ?_⟩
  · intro tid name dstr db
    constructor
    · unfold add_table_route
      by_cases hg : (pyStrip tid = "" ∨ pyStrip name = "" ∨ dstr = "")
      · rw [if_pos hg]
        simp
      · rw [if_neg hg]
        rw [if_neg (by simp [List.length_map])]
        rcases hct : create_table injNone (pyStrip tid) (pyStrip name)
            ((parseLabels dstr).map derive_column_name) (parseLabels dstr) db with ⟨r, db2⟩
        cases r <;> simp
    · unfold edit_table_route
      by_cases hg : (pyStrip tid = "" ∨ pyStrip name = "" ∨ dstr = "")
      · rw [if_pos hg]
        simp
      · rw [if_neg hg]
        rw [if_neg (by simp [List.length_map])]
        rcases hct : update_table injNone (pyStrip tid) (pyStrip name)
            ((parseLabels dstr).map derive_column_name) (parseLabels dstr) db with ⟨r, db2⟩
        cases r <;> simp
  · intro tid name dstr db hg hdup
    unfold add_table_route
    rw [if_neg hg]
    rw [if_neg (by simp [List.length_map])]
    unfold create_table runTxn create_table_go
    simp only [injNone, Bool.false_eq_true, if_false]
    cases hins : insertSetting db.settings
        { table_id := pyStrip tid, table_name := pyStrip name,
          columns := (parseLabels dstr).map derive_column_name,
          display_columns := parseLabels dstr,
          display_order := pyOrDefault (maxDisplayOrder db.settings) (-1) + 1 } with
    | error e => exact ⟨e, rfl⟩
    | ok s2 =>
      dsimp only
      by_cases hex : ((db.tables.find? (fun p => p.1 = pyStrip tid)).isSome : Bool) = true
      · rw [show createPhysical db.tables (pyStrip tid)
              ((parseLabels dstr).map derive_column_name)
            = Except.error ("table " ++ pyStrip tid ++ " already exists") from by
          unfold createPhysical
          rw [if_pos hex]]
        exact ⟨_, rfl⟩
      · rw [show createPhysical db.tables (pyStrip tid)
              ((parseLabels dstr).map derive_column_name)
            = Except.error "duplicate column name" from by
          unfold createPhysical
          rw [if_neg hex, if_pos hdup]]
        exact ⟨_, rfl⟩
  · intro tid name dstr db td hg hdup hfind hset
    unfold edit_table_route
    rw [if_neg hg]
    rw [if_neg (by simp [List.length_map])]
    rw [update_table_same_set_eq (pyStrip tid) (pyStrip name)
      ((parseLabels dstr).map derive_column_name) (parseLabels dstr) db td hfind hset]

/-- Witness for the amended C8: "Size (cm), Size - cm" both derive
`size_cm`, so creating `box` fails with a storage error and changes
nothing, while the duplicate edit of the counterexample succeeds
catalog-only. -/
theorem label_validation_amended_witness :
    (∃ e, add_table_route "box" "Box" "Size (cm), Size - cm" dbFridge
        = (FormResult.opError e, dbFridge))
    ∧ edit_table_route "fridge" "Fridge" "Item, Item, Amount" dbFridge =
        (FormResult.ok,
         { settings := updateSetting dbFridge.settings (pyStrip "fridge") (pyStrip "Fridge")
             ((parseLabels "Item, Item, Amount").map derive_column_name)
             (parseLabels "Item, Item, Amount"),
           tables := dbFridge.tables }) :=
  ⟨label_validation_amended.2.1 "box" "Box" "Size (cm), Size - cm" dbFridge
      (by decide) (by decide),
   label_validation_amended.2.2 "fridge" "Fridge" "Item, Item, Amount" dbFridge
      fridgeDef (by decide) (by decide) (by decide) (by decide)⟩

end FoodWebapp
